import Mathlib

/-!
# icomm_kafka_integration: ingest-to-fan-out pipeline

A shallow embedding of `src/main.go` and `src/models/*.go`.

Conventions of the embedding

* A Go `string` is a Lean `String`.  Go strings are byte sequences; every
  operation embedded here (equality with ASCII literals, cutting at the
  ASCII byte `,`, ASCII digit tests) acts the same way on the UTF-8 bytes
  and on the characters, because an ASCII byte never occurs inside a
  multi-byte encoding.
* A Go typed integer (`type Privacy int`, ...) is a Lean `Int`, with the
  constants of the `const` blocks as definitions.
* A Go pointer that is only tested for nil and read (`*PhysicalState`,
  `*time.Time`, `*string`) is an `Option`.
* A Go slice is a `List`.
* The Go standard library functions the pipeline calls (`strings.Split`,
  `strings.Join`, `time.Parse`) are embedded from their Go implementation.
-/

namespace Icomm

/-! ## models/document.go : enumerations -/

abbrev FileTypes := Int
def FileTypeImage : FileTypes := 1
def FileTypeVideo : FileTypes := 2
def FileTypePdf : FileTypes := 3
def FileTypeDoc : FileTypes := 4

abbrev DocumentStatus := Int
def DocStatusNotStart : DocumentStatus := 1
def DocStatusPending : DocumentStatus := 2
def DocStatusDone : DocumentStatus := 3
def DocStatusFail : DocumentStatus := 4

abbrev ProcessStatuses := Int
def ProcessStatuses.Error : ProcessStatuses := -1
def Pending : ProcessStatuses := 0
def Processing : ProcessStatuses := 1
def Done : ProcessStatuses := 2

abbrev ApproveStatus := Int
def ApproveStatusDraft : ApproveStatus := 0
def ApproveStatusPending : ApproveStatus := 1
def ApproveStatusApproved : ApproveStatus := 2
def ApproveStatusRejected : ApproveStatus := 3

abbrev ReliabilityLevel := Int
def ElectronicOriginal : ReliabilityLevel := 1
def Digitalization : ReliabilityLevel := 2
def Mixed : ReliabilityLevel := 3

abbrev PhysicalState := Int
def Good : PhysicalState := 1
def Normal : PhysicalState := 2
def Damaged : PhysicalState := 3

abbrev HasAttachment := Int

abbrev Privacy := Int
def Public : Privacy := 0
def Conditional : Privacy := 1
def Private : Privacy := 2

abbrev BackupStatus := Int
def NotBackedUp : BackupStatus := 0
def BackedUp : BackupStatus := 1

/-! ## main.go : the code translators -/

/-- The function `ParseLangCode` of main.go. -/
def ParseLangCode (languages : List String) : String :=
  match languages with
  | [] => ""
  | baseLanguage :: _ =>
    if baseLanguage = "" then ""
    else
      match baseLanguage with
      | "01" => "vi"
      | "02" => "en"
      | "03" => "fr"
      | "04" => "ru"
      | "05" => "zh"
      | "06" => "vi-en"
      | "07" => "vi-ru"
      | "08" => "vi-fr"
      | "09" => "sino_vn"
      | "10" => "vi-zh"
      | _ => ""

/-- The function `ParsePrivacy` of main.go. -/
def ParsePrivacy (mode : String) : Privacy :=
  match mode with
  | "01" => Public
  | "02" => Conditional
  | "03" => Private
  | _ => Private

/-- The function `ParsePhysicalState` of main.go; a nil pointer is `none`. -/
def ParsePhysicalState (state : String) : Option PhysicalState :=
  match state with
  | "01" => some Good
  | "02" => some Normal
  | "03" => some Damaged
  | _ => none

/-- The function `ParseReliability` of main.go; a nil pointer is `none`. -/
def ParseReliability (level : String) : Option ReliabilityLevel :=
  match level with
  | "01" => some ElectronicOriginal
  | "02" => some Digitalization
  | "03" => some Mixed
  | _ => none

/-- The `switch data.Type` block at the head of `saveDoc` (main.go, lines
145-156): `fileType` starts at the zero value of `FileTypes` and is assigned
in four cases; the switch has no default. -/
def saveDoc_fileType (type : String) : FileTypes :=
  match type with
  | "DOC" => FileTypeDoc
  | "PIC" => FileTypeImage
  | "MEDIA" => FileTypeVideo
  | "FILE" => FileTypeDoc
  | _ => 0

/-! ## Go standard library: package strings -/

/-- Go `strings.IndexByte`: the position of the first `c` in `s`; Go's `-1`
is `none`. -/
def indexByte : List Char → Char → Option Nat
  | [], _ => none
  | x :: t, c => if x = c then some 0 else (indexByte t c).map (· + 1)

/-- Go `bytealg.CountString`: the number of occurrences of `c` in `s`. -/
def countByte : List Char → Char → Nat
  | [], _ => 0
  | x :: t, c => (if x = c then 1 else 0) + countByte t c

/-- The `for i < n` loop of Go `strings.genSplit` with `sepSave = 0` and a
separator of one byte; the first argument is `n - i`, the number of rounds
left.  Each round cuts `s[:m]` off at the first separator and continues with
`s[m+1:]`; after the loop the rest of `s` is the last element. -/
def genSplitLoop (sep : Char) : Nat → List Char → List (List Char)
  | 0, s => [s]
  | k + 1, s =>
    match indexByte s sep with
    | none => [s]
    | some m => s.take m :: genSplitLoop sep k (s.drop (m + 1))

/-- Go `strings.Split(s, sep)`, that is `genSplit(s, sep, 0, -1)`, for a
separator `sep` of one byte (the path `Count` and `Index` take when
`len(sep) == 1`): `n` is `Count(s, sep) + 1`, capped at `len(s) + 1`. -/
def stringsSplit (s : String) (sep : Char) : List String :=
  let n0 := countByte s.data sep + 1
  let n := if n0 > s.data.length + 1 then s.data.length + 1 else n0
  (genSplitLoop sep (n - 1) s.data).map String.mk

/-- Go `strings.Join(elems, sep)`: the empty string for no element, the
element itself for one, and otherwise the first element followed by
`sep` and the element, for each further element in order. -/
def stringsJoin (elems : List String) (sep : String) : String :=
  match elems with
  | [] => ""
  | [e] => e
  | e :: rest => rest.foldl (fun b s => b ++ sep ++ s) e

/-! ## Go standard library: package time, `Parse` on date layouts -/

/-- The civil fields of a Go `time.Time` built by `time.Date` in UTC. -/
structure Time where
  year : Int
  month : Int
  day : Int
  hour : Int
  min : Int
  sec : Int
  nsec : Int
  deriving DecidableEq, Repr

/-- The layout elements of Go's `time` package that a layout written
with digits can hold (the `std...` constants of format.go); `none` is Go's
`0`, no element. -/
inductive Std where
  | none | zeroMonth | zeroDay | zeroHour12 | zeroMinute | zeroSecond | year
  | zeroYearDay | hour | numMonth | longYear | day | hour12 | minute | second
  deriving DecidableEq, Repr

/-- Go's table `std0x`: the elements "01" .. "06", by their second
character. -/
def std0x (d : Char) : Std :=
  if d = '1' then Std.zeroMonth
  else if d = '2' then Std.zeroDay
  else if d = '3' then Std.zeroHour12
  else if d = '4' then Std.zeroMinute
  else if d = '5' then Std.zeroSecond
  else Std.year

/-- The cases '0' to '5' of the switch in Go `time.nextStdChunk`, at the
head `c` of the layout with `rest` after it: the element that starts here
and the layout after it, if one starts here.  The cases for letters and
for '_', '-', '.', ',' are left out: the layout of main.go has none of
these characters. -/
def stdAt (c : Char) (rest : List Char) : Option (Std × List Char) :=
  if c = '0' then
    match rest with
    | d :: r2 =>
      if '1' ≤ d ∧ d ≤ '6' then some (std0x d, r2)
      else
        match rest with
        | '0' :: '2' :: r3 => some (Std.zeroYearDay, r3)
        | _ => Option.none
    | [] => Option.none
  else if c = '1' then
    match rest with
    | '5' :: r2 => some (Std.hour, r2)
    | _ => some (Std.numMonth, rest)
  else if c = '2' then
    match rest with
    | '0' :: '0' :: '6' :: r4 => some (Std.longYear, r4)
    | _ => some (Std.day, rest)
  else if c = '3' then some (Std.hour12, rest)
  else if c = '4' then some (Std.minute, rest)
  else if c = '5' then some (Std.second, rest)
  else Option.none

/-- Go `time.nextStdChunk`: the text before the first layout element, the
element, and the layout after it; `(layout, none, [])` when the layout has
no element. -/
def nextStdChunk : List Char → List Char × Std × List Char
  | [] => ([], Std.none, [])
  | c :: rest =>
    match stdAt c rest with
    | some (std, suffix) => ([], std, suffix)
    | Option.none =>
      match nextStdChunk rest with
      | (prefx, std, suffix) => (c :: prefx, std, suffix)

/-- The ways `time.Parse` fails, and `unsupported` for a layout element
outside the date elements embedded here. -/
inductive ParseError where
  | bad | outOfRange | extraText | unsupported
  deriving DecidableEq, Repr

/-- Go `time.isDigit(s, i)` at `i = 0`. -/
def isDigit0 (s : List Char) : Bool :=
  match s with
  | c :: _ => decide ('0' ≤ c ∧ c ≤ '9')
  | [] => false

/-- The value `c - '0'` of a digit. -/
def digitVal (c : Char) : Int := (c.toNat : Int) - 48

/-- Go `time.getnum`: a number of one or two digits at the head of `s`, of
exactly two when `fixed`. -/
def getnum (s : List Char) (fixed : Bool) : Except ParseError (Int × List Char) :=
  if !isDigit0 s then Except.error ParseError.bad
  else if !isDigit0 (s.drop 1) then
    if fixed then Except.error ParseError.bad
    else Except.ok (digitVal (s.headD '0'), s.drop 1)
  else Except.ok (digitVal (s.headD '0') * 10 + digitVal ((s.drop 1).headD '0'), s.drop 2)

/-- Go `time.cutspace`. -/
def cutspace : List Char → List Char
  | ' ' :: t => cutspace t
  | s => s

/-- Go `time.skip`: removes `prefx` from the head of `value`; a space in
`prefx` stands for any run of spaces. The first argument bounds the number
of rounds (each round shortens `prefx`). -/
def skip : Nat → List Char → List Char → Except ParseError (List Char)
  | 0, value, _ => Except.ok value
  | fuel + 1, value, prefx =>
    match prefx with
    | [] => Except.ok value
    | p :: ps =>
      if p = ' ' then
        if value ≠ [] ∧ value.head? ≠ some ' ' then Except.error ParseError.bad
        else skip fuel (cutspace value) (cutspace prefx)
      else
        match value with
        | [] => Except.error ParseError.bad
        | v :: vs => if v ≠ p then Except.error ParseError.bad else skip fuel vs ps

/-- Go `time.leadingInt`: the digits at the head of `s` added to `x`, and
the rest of `s`; fails when the number passes `2^63`. -/
def leadingInt : List Char → Nat → Except ParseError (Nat × List Char)
  | [], x => Except.ok (x, [])
  | c :: t, x =>
    if c < '0' ∨ c > '9' then Except.ok (x, c :: t)
    else if x > 2 ^ 63 / 10 then Except.error ParseError.bad
    else
      let x1 := x * 10 + (c.toNat - 48)
      if x1 > 2 ^ 63 then Except.error ParseError.bad else leadingInt t x1

/-- Go `time.atoi`: an optional sign and digits, nothing else; the `uint64`
of `leadingInt` is converted to `int` (64 bits, two's complement). -/
def atoi (s : List Char) : Except ParseError Int :=
  let neg := decide (s.head? = some '-')
  let s1 := if s.head? = some '-' ∨ s.head? = some '+' then s.drop 1 else s
  match leadingInt s1 0 with
  | Except.error e => Except.error e
  | Except.ok (q, rem) =>
    if rem ≠ [] then Except.error ParseError.bad
    else
      let x : Int := ((q : Int) + 2 ^ 63) % 2 ^ 64 - 2 ^ 63
      Except.ok (if neg then -x else x)

/-- Go `time.isLeap`. -/
def isLeap (year : Int) : Bool :=
  decide (year % 4 = 0 ∧ (year % 100 ≠ 0 ∨ year % 400 = 0))

/-- Go's table `time.daysBefore`. -/
def daysBefore : List Int := [0, 31, 59, 90, 120, 151, 181, 212, 243, 273, 304, 334, 365]

/-- Go `time.daysIn`. -/
def daysIn (m : Int) (year : Int) : Int :=
  if m = 2 ∧ isLeap year then 29
  else daysBefore.getD m.toNat 0 - daysBefore.getD (m.toNat - 1) 0

/-- The local variables of `time.Parse` that a date layout reads and
writes. -/
structure ParseState where
  value : List Char
  year : Int
  month : Int
  day : Int
  deriving DecidableEq, Repr

/-- The `for` loop of Go `time.Parse`: take the next element of the layout,
skip the text before it in the value, and read the element from the value.
The date elements (day "2" and "02", month "1" and "01", year "2006") are
embedded; another element gives `unsupported`.  The first argument bounds
the number of rounds; each round shortens the layout, so the length of the
layout plus one is enough. -/
def parseLoop : Nat → List Char → ParseState → Except ParseError ParseState
  | 0, _, _ => Except.error ParseError.unsupported
  | fuel + 1, layout, st =>
    match nextStdChunk layout with
    | (prefx, std, suffix) =>
      match skip prefx.length st.value prefx with
      | Except.error e => Except.error e
      | Except.ok value =>
        match std with
        | Std.none =>
          if value.length ≠ 0 then Except.error ParseError.extraText
          else Except.ok { st with value := value }
        | Std.longYear =>
          if value.length < 4 ∨ !isDigit0 value then Except.error ParseError.bad
          else
            match atoi (value.take 4) with
            | Except.error e => Except.error e
            | Except.ok y => parseLoop fuel suffix { st with value := value.drop 4, year := y }
        | Std.numMonth | Std.zeroMonth =>
          match getnum value (decide (std = Std.zeroMonth)) with
          | Except.error e => Except.error e
          | Except.ok (m, v) =>
            if m ≤ 0 ∨ 12 < m then Except.error ParseError.outOfRange
            else parseLoop fuel suffix { st with value := v, month := m }
        | Std.day | Std.zeroDay =>
          match getnum value (decide (std = Std.zeroDay)) with
          | Except.error e => Except.error e
          | Except.ok (d, v) => parseLoop fuel suffix { st with value := v, day := d }
        | _ => Except.error ParseError.unsupported

/-- Go `time.Parse(layout, value)` for a date layout: the loop, then the
defaults for a month or day the layout does not have, the check of the day
against the month, and `Date(year, month, day, 0, 0, 0, 0, UTC)`. -/
def timeParse (layout value : String) : Except ParseError Time :=
  match parseLoop (layout.data.length + 1) layout.data
      { value := value.data, year := 0, month := -1, day := -1 } with
  | Except.error e => Except.error e
  | Except.ok st =>
    let month := if st.month < 0 then 1 else st.month
    let day := if st.day < 0 then 1 else st.day
    if day < 1 ∨ day > daysIn month st.year then Except.error ParseError.outOfRange
    else Except.ok { year := st.year, month := month, day := day, hour := 0, min := 0, sec := 0, nsec := 0 }

/-! ## main.go : content and date helpers -/

/-- A Go value of type `any`, by the dynamic types `parseContent`
tells apart: a `string`, a `[]string`, and anything else (nil included). -/
inductive GoAny where
  | str (val : String)
  | strs (val : List String)
  | other
  deriving DecidableEq, Repr

/-- The function `parseContent` of main.go. -/
def parseContent (unknownTypeContent : GoAny) : String :=
  match unknownTypeContent with
  | GoAny.str val => val
  | GoAny.strs val => stringsJoin val "\n"
  | GoAny.other => ""

/-- The function `parseDateStringToTime` of main.go; the nil pointer is
`none`. -/
def parseDateStringToTime (raw : String) : Option Time :=
  match timeParse "26/01/2006" raw with
  | Except.error _ => none
  | Except.ok t =>
    let year := t.year
    if year ≥ 0 ∧ year ≤ 9999 then some t else none

/-! ## models/kafka_message.go, models/process_ocr_request.go -/

structure MessageMetadata where
  IssuedDate : String
  ConfidenceLevel : String
  Process : String
  Attachments : List String
  DocID : String
  Subject : String
  InforSign : String
  TypeName : String
  Format : String
  Description : String
  Language : List String
  Autograph : String
  RiskRecoveryStatus : String
  CodeNumber : String
  NumberOfPage : String
  Mode : String
  OrganName : String
  CodeNotation : String
  ArcDocCode : String
  SchemaID : String
  FileExtension : String
  Keyword : String
  Maintenance : String
  RiskRecovery : String
  deriving DecidableEq, Repr

/-- The struct `ReceivedMessage`; its field `Type` is `Type_` here, `Type`
being a reserved word. -/
structure ReceivedMessage where
  Metadata : MessageMetadata
  PartyCode : String
  PID : String
  ID : String
  Source : String
  Type_ : String
  FondCode : String
  Content : String
  deriving DecidableEq, Repr

structure DetailContent where
  Id : String
  CreatedTime : String
  Index : Int
  Content : String
  deriving DecidableEq, Repr

structure ProcessOcrRequest where
  DocumentId : String
  Priority : Int
  DocumentCreatedTime : String
  IsDetectFace : Bool
  FileType : FileTypes
  OriginalLangCode : String
  TranslateLangCode : String
  Title : String
  Subject : Option String
  DetailContent : List DetailContent
  deriving DecidableEq, Repr

/-! ## models/document.go : the Document -/

/-- The struct `Document` of models/document.go, by the fields `saveDoc`
assigns and `CanFindDocumentByImage`; the fields left out stay at their zero
value (nil, empty) in every Document this program builds. -/
structure Document where
  ID : String
  Status : DocumentStatus
  OcrProcessStatus : ProcessStatuses
  FaceDetectProcessStatus : ProcessStatuses
  ExtractPureInfoProcessStatus : ProcessStatuses
  ExtractContentProcessStatus : ProcessStatuses
  LegalDocumentProcessStatus : ProcessStatuses
  DetailsUpdated : Bool
  BackupStatus : BackupStatus
  HasBackup : Bool
  ApproveStatus : ApproveStatus
  Title : String
  Subject : Option String
  Description : Option String
  FileType : FileTypes
  CreatedTime : Time
  InsertedTime : Time
  IssuedTime : Option Time
  DocumentCode : Option String
  CreatorID : String
  CreatorName : Option String
  Metadata : Option String
  InputSourceType : Option String
  OriginalLangCode : String
  TranslateLangCode : String
  Autograph : Option String
  Privacy : Privacy
  Keywords : List String
  PhysicalState : Option PhysicalState
  HasAttachment : Option HasAttachment
  ReliabilityLevel : Option ReliabilityLevel
  IntegrationID : Option String
  IsDetectFace : Bool
  Priority : Int
  InputFileURLs : List String
  CanFindDocumentByImage : Bool
  deriving DecidableEq, Repr

/-! ## The stores -/

/-- A row of the table `documents`: the 34 columns of the INSERT statement
of `saveDoc`, in its order.  A column that can hold NULL is an `Option`. -/
structure Row where
  id : String
  title : String
  subject : String
  description : String
  file_type : FileTypes
  created_time : Time
  inserted_time : Time
  issued_time : Option Time
  document_code : String
  creator_id : String
  creator_name : String
  metadata : String
  input_source_type : String
  original_lang_code : String
  translate_lang_code : String
  autograph : String
  privacy : Privacy
  keywords : List String
  physical_state : Option PhysicalState
  has_attachment : Option HasAttachment
  reliability_level : Option ReliabilityLevel
  integration_id : Option String
  is_detect_face : Bool
  priority : Int
  input_file_urls : List String
  configs : String
  can_find_document_by_image : Bool
  status : Int
  approve_status : Int
  ocr_process_status : Int
  face_detect_process_status : Int
  extract_pure_info_process_status : Int
  extract_content_process_status : Int
  legal_document_process_status : Int
  deriving DecidableEq, Repr

/-- The three sinks of the pipeline: the rows of the table `documents`, the
documents of the search index by their id, and the requests published to
the queue, oldest first. -/
structure World where
  db : List Row
  es : List (String × Document)
  mq : List ProcessOcrRequest
  deriving DecidableEq, Repr

/-- The uniqueness constraint on `integration_id`: no two rows hold the
same non-NULL value. -/
def uniqueIntegration (db : List Row) : Prop :=
  (db.filterMap (fun r => r.integration_id)).Nodup

instance (db : List Row) : Decidable (uniqueIntegration db) := by
  unfold uniqueIntegration; infer_instance

/-- The statement `INSERT ... ON CONFLICT (integration_id) DO NOTHING
RETURNING id` on the store: with a row of the same integration id present
nothing is written and no row comes back (`sql.ErrNoRows` on Scan);
otherwise the row is added and its id comes back.  Failures of the
connection are outside the model. -/
def insertDocument (db : List Row) (row : Row) : Option String × List Row :=
  if db.any (fun r => decide (r.integration_id = row.integration_id)) then (none, db)
  else (some row.id, db ++ [row])

/-- The request `Index(...).Document(document).Id(id)` on the search
index: the document is stored under `id`, in place of an earlier one with
that id. -/
def indexDocument (es : List (String × Document)) (id : String) (document : Document) :
    List (String × Document) :=
  es.filter (fun p => decide (p.1 ≠ id)) ++ [(id, document)]

/-- What one call of `processData` reads from outside the program: the
clock, the environment, the uuid generator, the two encoders it hands
values to, and whether the index request and the publish fail. -/
structure Env where
  now : Time
  systemKeyId : String
  rowUUID : String
  marshal : ReceivedMessage → String
  indexFails : Bool
  detailUUID : String
  detailNow : Time
  formatRFC3339 : Time → String
  publishFails : Bool

/-- How a call ends: it returns a value, or `log.Fatalf` ends the
process. -/
inductive Outcome (α : Type) where
  | ret (a : α)
  | fatal
  deriving DecidableEq, Repr

/-! ## main.go : saveDoc and processData -/

/-- The argument list `agrs` of `saveDoc` (main.go, lines 215-250) as a
row. -/
def saveDoc_row (env : Env) (data : ReceivedMessage) : Row :=
  { id := env.rowUUID
    title := ""
    subject := data.Metadata.Subject
    description := data.Metadata.Description
    file_type := saveDoc_fileType data.Type_
    created_time := env.now
    inserted_time := env.now
    issued_time := parseDateStringToTime data.Metadata.IssuedDate
    document_code := data.Metadata.ArcDocCode
    creator_id := env.systemKeyId
    creator_name := "system"
    metadata := env.marshal data
    input_source_type := "tich_hop_gd_1"
    original_lang_code := ParseLangCode data.Metadata.Language
    translate_lang_code := "org"
    autograph := data.Metadata.Autograph
    privacy := ParsePrivacy data.Metadata.Mode
    keywords := stringsSplit data.Metadata.Keyword ','
    physical_state := ParsePhysicalState data.Metadata.Format
    has_attachment := none
    reliability_level := ParseReliability data.Metadata.ConfidenceLevel
    integration_id := some data.ID
    is_detect_face := true
    priority := 8
    input_file_urls := []
    configs := "[]"
    can_find_document_by_image := false
    status := 1
    approve_status := 0
    ocr_process_status := 0
    face_detect_process_status := 0
    extract_pure_info_process_status := 0
    extract_content_process_status := 0
    legal_document_process_status := 0 }

/-- The struct literal `document` of `saveDoc` (main.go, lines 265-301),
with the id the INSERT returned. -/
def saveDoc_document (env : Env) (data : ReceivedMessage) (id : String) : Document :=
  { ID := id
    Status := DocStatusNotStart
    OcrProcessStatus := Pending
    FaceDetectProcessStatus := Pending
    ExtractPureInfoProcessStatus := Pending
    ExtractContentProcessStatus := Pending
    LegalDocumentProcessStatus := Pending
    DetailsUpdated := false
    BackupStatus := NotBackedUp
    HasBackup := false
    ApproveStatus := ApproveStatusDraft
    Title := ""
    Subject := some data.Metadata.Subject
    Description := some data.Metadata.Description
    FileType := saveDoc_fileType data.Type_
    CreatedTime := env.now
    InsertedTime := env.now
    IssuedTime := parseDateStringToTime data.Metadata.IssuedDate
    DocumentCode := some data.Metadata.ArcDocCode
    CreatorID := env.systemKeyId
    CreatorName := some "system"
    Metadata := some (env.marshal data)
    InputSourceType := some "tich_hop_gd_1"
    OriginalLangCode := ParseLangCode data.Metadata.Language
    TranslateLangCode := "org"
    Autograph := some data.Metadata.Autograph
    Privacy := ParsePrivacy data.Metadata.Mode
    Keywords := stringsSplit data.Metadata.Keyword ','
    PhysicalState := ParsePhysicalState data.Metadata.Format
    HasAttachment := none
    ReliabilityLevel := ParseReliability data.Metadata.ConfidenceLevel
    IntegrationID := some data.ID
    IsDetectFace := true
    Priority := 1
    InputFileURLs := []
    CanFindDocumentByImage := false }

/-- The function `saveDoc` of main.go: the INSERT; when no row comes back,
`(nil, true)`; otherwise the index request for the document under the
returned id, fatal when it fails, and `(&document, false)`. -/
def saveDoc (env : Env) (data : ReceivedMessage) (w : World) :
    Outcome (Option Document × Bool) × World :=
  match insertDocument w.db (saveDoc_row env data) with
  | (none, db) => (Outcome.ret (none, true), { w with db := db })
  | (some id, db) =>
    let document := saveDoc_document env data id
    if env.indexFails then (Outcome.fatal, { w with db := db })
    else
      (Outcome.ret (some document, false),
        { w with db := db, es := indexDocument w.es document.ID document })

/-- The request `req` of `processData` (main.go, lines 96-121), from the
document `saveDoc` returned. -/
def processData_request (env : Env) (data : ReceivedMessage) (doc : Document) :
    ProcessOcrRequest :=
  let detailContent : List DetailContent := []
  let content := parseContent (GoAny.str data.Content)
  let detailContent :=
    if content ≠ "" then
      detailContent ++ [{ Id := env.detailUUID
                          CreatedTime := env.formatRFC3339 env.detailNow
                          Index := 0
                          Content := content }]
    else detailContent
  { DocumentId := doc.ID
    Priority := doc.Priority
    DocumentCreatedTime := env.formatRFC3339 doc.CreatedTime
    IsDetectFace := doc.IsDetectFace
    FileType := doc.FileType
    OriginalLangCode := doc.OriginalLangCode
    TranslateLangCode := doc.TranslateLangCode
    Title := doc.Title
    Subject := doc.Subject
    DetailContent := detailContent }

/-- The function `processData` of main.go: `saveDoc`; return when the
document existed; otherwise build the request and publish it, fatal when
the publish fails.  `saveDoc` never returns `(nil, false)`; reading `doc.ID`
there would end the process. -/
def processData (env : Env) (data : ReceivedMessage) (w : World) : Outcome Unit × World :=
  match saveDoc env data w with
  | (Outcome.fatal, w1) => (Outcome.fatal, w1)
  | (Outcome.ret (_, true), w1) => (Outcome.ret (), w1)
  | (Outcome.ret (none, false), w1) => (Outcome.fatal, w1)
  | (Outcome.ret (some doc, false), w1) =>
    let req := processData_request env data doc
    if env.publishFails then (Outcome.fatal, w1)
    else (Outcome.ret (), { w1 with mq := w1.mq ++ [req] })

/-! ## Notions the statements use -/

/-- The spec-side join on character lists: the elements in order with `sep`
between neighbours. -/
def joinChars (sep : List Char) : List (List Char) → List Char
  | [] => []
  | [e] => e
  | e :: e2 :: rest => e ++ sep ++ joinChars sep (e2 :: rest)

/-- The rows of the store that hold the integration id `x`. -/
def rowsWith (db : List Row) (x : String) : List Row :=
  db.filter (fun r => decide (r.integration_id = some x))

/-- The character of the decimal digit `n`. -/
def digitChar (n : Fin 10) : Char := Char.ofNat (48 + n.val)

/-- The argument of the call `parseContent(data.Content)` in `processData`
(main.go, line 98): the field `Content`, declared `string` in
`ReceivedMessage`, converted to `any`; its dynamic type is `string`. -/
def processData_contentArg (data : ReceivedMessage) : GoAny := GoAny.str data.Content

/-! ## Concrete inputs -/

/-- An event of type "DOC" with content "line1". -/
def sampleEvent : ReceivedMessage :=
  { Metadata :=
      { IssuedDate := "26/01/2006", ConfidenceLevel := "01", Process := "", Attachments := [],
        DocID := "d-1", Subject := "subject", InforSign := "", TypeName := "", Format := "02",
        Description := "description", Language := ["01"], Autograph := "", RiskRecoveryStatus := "",
        CodeNumber := "", NumberOfPage := "1", Mode := "99", OrganName := "", CodeNotation := "",
        ArcDocCode := "arc-1", SchemaID := "", FileExtension := "pdf", Keyword := "a,b",
        Maintenance := "", RiskRecovery := "" }
    PartyCode := "", PID := "", ID := "evt-1", Source := "", Type_ := "DOC", FondCode := "",
    Content := "line1" }

/-- The outside world of a first call. -/
def sampleEnv : Env :=
  { now := ⟨2024, 5, 17, 10, 0, 0, 0⟩
    systemKeyId := "sys"
    rowUUID := "uuid-1"
    marshal := fun m => m.ID
    indexFails := false
    detailUUID := "uuid-2"
    detailNow := ⟨2024, 5, 17, 10, 0, 1, 0⟩
    formatRFC3339 := fun t => toString t.year
    publishFails := false }

/-- The outside world of a second call. -/
def sampleEnv2 : Env :=
  { sampleEnv with rowUUID := "uuid-3", detailUUID := "uuid-4", now := ⟨2024, 5, 17, 11, 0, 0, 0⟩ }

/-- A world whose store holds one row, of another event. -/
def sampleWorld : World :=
  { db := [saveDoc_row sampleEnv { sampleEvent with ID := "evt-0" }], es := [], mq := [] }

/-! ## Lemmas on the strings package -/

theorem countByte_eq_count (s : List Char) (c : Char) : countByte s c = s.count c := by
  induction s with
  | nil => rfl
  | cons x t ih =>
    by_cases h : x = c
    · subst h; simp [countByte, ih, Nat.add_comm]
    · have h2 : ¬ (x == c) = true := by simpa using h
      simp [countByte, ih, h, List.count_cons, h2]

theorem indexByte_none (s : List Char) (c : Char) (h : indexByte s c = none) : c ∉ s := by
  induction s with
  | nil => simp
  | cons x t ih =>
    unfold indexByte at h
    split at h
    · simp at h
    · rename_i hx
      simp only [Option.map_eq_none'] at h
      simp only [List.mem_cons, not_or]
      exact ⟨fun e => hx e.symm, ih h⟩

theorem indexByte_some (s : List Char) (c : Char) (m : Nat) (h : indexByte s c = some m) :
    s = s.take m ++ c :: s.drop (m + 1) ∧ c ∉ s.take m := by
  induction s generalizing m with
  | nil => simp [indexByte] at h
  | cons x t ih =>
    unfold indexByte at h
    split at h
    · rename_i hx
      simp only [Option.some.injEq] at h
      subst h; subst hx
      simp
    · rename_i hx
      simp only [Option.map_eq_some'] at h
      obtain ⟨m1, hm1, rfl⟩ := h
      obtain ⟨h1, h2⟩ := ih m1 hm1
      refine ⟨?_, ?_⟩
      · simp only [List.take_succ_cons, List.drop_succ_cons, List.cons_append, List.cons.injEq,
          true_and]
        exact h1
      · simp only [List.take_succ_cons, List.mem_cons, not_or]
        exact ⟨fun e => hx e.symm, h2⟩

theorem genSplitLoop_ne_nil (c : Char) (k : Nat) (s : List Char) : genSplitLoop c k s ≠ [] := by
  cases k with
  | zero => simp [genSplitLoop]
  | succ k =>
    unfold genSplitLoop
    split <;> simp

theorem joinChars_cons (sep e : List Char) (l : List (List Char)) (h : l ≠ []) :
    joinChars sep (e :: l) = e ++ sep ++ joinChars sep l := by
  cases l with
  | nil => exact absurd rfl h
  | cons e2 rest => rfl

/-- With enough rounds for every separator, the split loop gives one more
element than there are separators, no element holds the separator, and the
elements joined with the separator are the input. -/
theorem genSplitLoop_spec (c : Char) (k : Nat) (s : List Char) (hk : s.count c ≤ k) :
    (genSplitLoop c k s).length = s.count c + 1 ∧
    (∀ e ∈ genSplitLoop c k s, c ∉ e) ∧
    joinChars [c] (genSplitLoop c k s) = s := by
  induction k generalizing s with
  | zero =>
    have h0 : s.count c = 0 := Nat.le_zero.mp hk
    have hc : c ∉ s := List.count_eq_zero.mp h0
    simp [genSplitLoop, h0, joinChars, hc]
  | succ k ih =>
    unfold genSplitLoop
    split
    · rename_i hnone
      have hc : c ∉ s := indexByte_none s c hnone
      have h0 : s.count c = 0 := List.count_eq_zero.mpr hc
      simp [h0, joinChars, hc]
    · rename_i m hsome
      obtain ⟨hs, hnot⟩ := indexByte_some s c m hsome
      have hcount : s.count c = (s.drop (m + 1)).count c + 1 := by
        conv_lhs => rw [hs]
        rw [List.count_append, List.count_eq_zero.mpr hnot, List.count_cons_self]
        omega
      have hk2 : (s.drop (m + 1)).count c ≤ k := by omega
      obtain ⟨i1, i2, i3⟩ := ih (s.drop (m + 1)) hk2
      refine ⟨?_, ?_, ?_⟩
      · simp only [List.length_cons, i1]; omega
      · intro e he
        simp only [List.mem_cons] at he
        rcases he with rfl | he
        · exact hnot
        · exact i2 e he
      · rw [joinChars_cons _ _ _ (genSplitLoop_ne_nil c k _), i3]
        simp only [List.append_assoc, List.singleton_append]
        exact hs.symm

theorem foldl_join_data (sep : String) (rest : List String) (e : String) :
    (rest.foldl (fun b s => b ++ sep ++ s) e).data =
      e.data ++ (rest.map (fun s => sep.data ++ s.data)).flatten := by
  induction rest generalizing e with
  | nil => simp
  | cons x t ih =>
    simp only [List.foldl_cons, List.map_cons, List.flatten_cons]
    rw [ih]
    simp [String.data_append, List.append_assoc]

theorem joinChars_flatten (sep e : List Char) (rest : List (List Char)) :
    joinChars sep (e :: rest) = e ++ (rest.map (fun s => sep ++ s)).flatten := by
  induction rest generalizing e with
  | nil => simp [joinChars]
  | cons x t ih =>
    rw [joinChars_cons _ _ _ (by simp), ih]
    simp [List.append_assoc]

/-- The join of `strings.Join` is the join of the character lists. -/
theorem stringsJoin_data (elems : List String) (sep : String) :
    (stringsJoin elems sep).data = joinChars sep.data (elems.map String.data) := by
  match elems with
  | [] => rfl
  | [e] => rfl
  | e :: e2 :: rest =>
    show ((e2 :: rest).foldl (fun b s => b ++ sep ++ s) e).data = _
    rw [foldl_join_data]
    show _ = joinChars sep.data (e.data :: (e2 :: rest).map String.data)
    rw [joinChars_flatten]
    simp [List.map_map, Function.comp_def]

theorem intercalate_go_eq_foldl (sep : String) (rest : List String) (acc : String) :
    String.intercalate.go acc sep rest = rest.foldl (fun b s => b ++ sep ++ s) acc := by
  induction rest generalizing acc with
  | nil => rfl
  | cons x t ih => simp [String.intercalate.go, ih]

/-- The join of `strings.Join` is the library join `String.intercalate`. -/
theorem stringsJoin_eq_intercalate (elems : List String) (sep : String) :
    stringsJoin elems sep = String.intercalate sep elems := by
  match elems with
  | [] => rfl
  | [e] => rfl
  | e :: e2 :: rest =>
    show (e2 :: rest).foldl (fun b s => b ++ sep ++ s) e = String.intercalate.go e sep (e2 :: rest)
    rw [intercalate_go_eq_foldl]

/-! ## The code translators: theorems -/

/-- C2: `ParsePrivacy` is a total function that maps "01" to Public, "02" to
Conditional, "03" to Private and every other string (the empty string and
"99" among them) to Private; its result is Public exactly when the mode code
is "01". -/
theorem ParsePrivacy_total (mode : String) :
    ParsePrivacy "01" = Public ∧ ParsePrivacy "02" = Conditional ∧
    ParsePrivacy "03" = Private ∧ ParsePrivacy "" = Private ∧ ParsePrivacy "99" = Private ∧
    (mode ≠ "01" → mode ≠ "02" → ParsePrivacy mode = Private) ∧
    (ParsePrivacy mode = Public ↔ mode = "01") := by
  refine ⟨by decide, by decide, by decide, by decide, by decide, ?_, ?_⟩
  · intro h1 h2
    unfold ParsePrivacy
    split <;> simp_all
  · unfold ParsePrivacy
    split <;> simp_all [Public, Conditional, Private]

/-- C7: `ParseLangCode` is a total function of the first element of the
list alone: the ten codes "01" to "10" give their language tags, and the
empty list, an empty first element and every other first element give the
empty string, whatever follows the first element. -/
theorem ParseLangCode_table (first : String) (rest other : List String) :
    ParseLangCode ("01" :: rest) = "vi" ∧ ParseLangCode ("02" :: rest) = "en" ∧
    ParseLangCode ("03" :: rest) = "fr" ∧ ParseLangCode ("04" :: rest) = "ru" ∧
    ParseLangCode ("05" :: rest) = "zh" ∧ ParseLangCode ("06" :: rest) = "vi-en" ∧
    ParseLangCode ("07" :: rest) = "vi-ru" ∧ ParseLangCode ("08" :: rest) = "vi-fr" ∧
    ParseLangCode ("09" :: rest) = "sino_vn" ∧ ParseLangCode ("10" :: rest) = "vi-zh" ∧
    ParseLangCode [] = "" ∧ ParseLangCode ("" :: rest) = "" ∧
    (first ∉ ["01", "02", "03", "04", "05", "06", "07", "08", "09", "10"] →
      ParseLangCode (first :: rest) = "") ∧
    ParseLangCode (first :: rest) = ParseLangCode (first :: other) := by
  refine ⟨rfl, rfl, rfl, rfl, rfl, rfl, rfl, rfl, rfl, rfl, rfl, rfl, ?_, rfl⟩
  intro h
  simp only [List.mem_cons, List.mem_singleton, not_or, List.not_mem_nil, not_false_eq_true,
    and_true] at h
  unfold ParseLangCode
  simp only
  split
  · rfl
  · split <;> simp_all

/-- C8: `ParsePhysicalState` and `ParseReliability` are total; on "01",
"02", "03" they give Good, Normal, Damaged and ElectronicOriginal,
Digitalization, Mixed, and on every other string they give nil; so each
returns a value exactly for these three codes. -/
theorem ParsePhysicalState_ParseReliability_table (code : String) :
    ParsePhysicalState "01" = some Good ∧ ParsePhysicalState "02" = some Normal ∧
    ParsePhysicalState "03" = some Damaged ∧
    ParseReliability "01" = some ElectronicOriginal ∧
    ParseReliability "02" = some Digitalization ∧ ParseReliability "03" = some Mixed ∧
    (code ∉ ["01", "02", "03"] → ParsePhysicalState code = none ∧ ParseReliability code = none) ∧
    ((ParsePhysicalState code).isSome ↔ code ∈ ["01", "02", "03"]) ∧
    ((ParseReliability code).isSome ↔ code ∈ ["01", "02", "03"]) := by
  refine ⟨rfl, rfl, rfl, rfl, rfl, rfl, ?_, ?_, ?_⟩
  · intro h
    simp only [List.mem_cons, List.mem_singleton, not_or, List.not_mem_nil, not_false_eq_true,
      and_true] at h
    constructor
    · unfold ParsePhysicalState
      split <;> simp_all
    · unfold ParseReliability
      split <;> simp_all
  · unfold ParsePhysicalState
    split <;> simp_all
  · unfold ParseReliability
    split <;> simp_all

/-- C9: the file type `saveDoc` writes to the row and to the document is
FileTypeDoc for the tag "DOC", FileTypeImage for "PIC", FileTypeVideo for
"MEDIA" and FileTypeDoc for "FILE"; for every other tag it is the zero
value 0, which is none of the constants Image = 1, Video = 2, Pdf = 3,
Doc = 4; for no tag is it FileTypePdf. -/
theorem saveDoc_fileType_table (env : Env) (data : ReceivedMessage) (id : String) :
    (saveDoc_row env data).file_type = saveDoc_fileType data.Type_ ∧
    (saveDoc_document env data id).FileType = saveDoc_fileType data.Type_ ∧
    saveDoc_fileType "DOC" = FileTypeDoc ∧ saveDoc_fileType "PIC" = FileTypeImage ∧
    saveDoc_fileType "MEDIA" = FileTypeVideo ∧ saveDoc_fileType "FILE" = FileTypeDoc ∧
    (data.Type_ ∉ ["DOC", "PIC", "MEDIA", "FILE"] → saveDoc_fileType data.Type_ = 0) ∧
    ((0 : FileTypes) ≠ FileTypeImage ∧ (0 : FileTypes) ≠ FileTypeVideo ∧
      (0 : FileTypes) ≠ FileTypePdf ∧ (0 : FileTypes) ≠ FileTypeDoc) ∧
    (FileTypeImage = 1 ∧ FileTypeVideo = 2 ∧ FileTypePdf = 3 ∧ FileTypeDoc = 4) ∧
    saveDoc_fileType data.Type_ ≠ FileTypePdf := by
  refine ⟨rfl, rfl, rfl, rfl, rfl, rfl, ?_, by decide, by decide, ?_⟩
  · intro h
    simp only [List.mem_cons, List.mem_singleton, not_or, List.not_mem_nil, not_false_eq_true,
      and_true] at h
    unfold saveDoc_fileType
    split <;> simp_all
  · unfold saveDoc_fileType
    split <;> decide

/-! ## Content and keywords: theorems -/

/-- C3: `parseContent` is total: a single string is returned unchanged, a
list of strings is returned as its elements joined with "\n" in their
order (so ["a", "b"] gives "a\nb"), and every other shape, nil included,
gives the empty string. -/
theorem parseContent_shapes (val : String) (vals : List String) :
    parseContent (GoAny.str val) = val ∧
    parseContent (GoAny.strs vals) = String.intercalate "\n" vals ∧
    (parseContent (GoAny.strs vals)).data = joinChars ['\n'] (vals.map String.data) ∧
    parseContent (GoAny.strs ["a", "b"]) = "a\nb" ∧
    parseContent (GoAny.strs []) = "" ∧
    parseContent GoAny.other = "" := by
  refine ⟨rfl, ?_, ?_, by decide, rfl, rfl⟩
  · exact stringsJoin_eq_intercalate vals "\n"
  · exact stringsJoin_data vals "\n"

theorem stringsSplit_rounds (k : String) :
    stringsSplit k ',' = (genSplitLoop ',' (k.data.count ',') k.data).map String.mk := by
  unfold stringsSplit
  have h := List.count_le_length ',' k.data
  simp only [countByte_eq_count]
  rw [if_neg (by omega)]
  simp

/-- C6: the keyword list `saveDoc` builds is the split of the keyword string
`k` on ',': it is not empty, it has one more element than `k` has commas, no
element holds a comma, and its elements joined with "," are `k` again; for
the empty string it is the list of the one empty string. -/
theorem keywords_split (env : Env) (data : ReceivedMessage) (docId : String) (k : String) :
    (saveDoc_row env data).keywords = stringsSplit data.Metadata.Keyword ',' ∧
    (saveDoc_document env data docId).Keywords = stringsSplit data.Metadata.Keyword ',' ∧
    stringsSplit k ',' ≠ [] ∧
    (stringsSplit k ',').length = k.data.count ',' + 1 ∧
    (∀ e ∈ stringsSplit k ',', ',' ∉ e.data) ∧
    stringsJoin (stringsSplit k ',') "," = k ∧
    stringsSplit "" ',' = [""] := by
  obtain ⟨h1, h2, h3⟩ := genSplitLoop_spec ',' (k.data.count ',') k.data (Nat.le_refl _)
  refine ⟨rfl, rfl, ?_, ?_, ?_, ?_, by decide⟩
  · rw [stringsSplit_rounds]
    simp [genSplitLoop_ne_nil]
  · rw [stringsSplit_rounds, List.length_map, h1]
  · intro e he
    rw [stringsSplit_rounds] at he
    simp only [List.mem_map] at he
    obtain ⟨l, hl, rfl⟩ := he
    exact h2 l hl
  · apply String.ext
    rw [stringsJoin_data, stringsSplit_rounds, List.map_map]
    have hid : (String.data ∘ String.mk) = (fun l : List Char => l) := by
      funext l; rfl
    rw [hid, List.map_id']
    exact h3

/-! ## The pipeline: theorems -/

theorem rowsWith_length (db : List Row) (x : String) :
    (rowsWith db x).length = (db.filterMap (fun r => r.integration_id)).count x := by
  induction db with
  | nil => rfl
  | cons r t ih =>
    unfold rowsWith at ih ⊢
    cases hr : r.integration_id with
    | none => simp [List.filter_cons, List.filterMap_cons, hr, ih]
    | some y =>
      by_cases hy : y = x
      · subst hy
        simp [List.filter_cons, List.filterMap_cons, hr, ih]
      · have hy2 : ¬ (y == x) = true := by simpa using hy
        simp [List.filter_cons, List.filterMap_cons, hr, ih, hy, List.count_cons, hy2]

theorem rowsWith_pos (db : List Row) (x : String)
    (h : db.any (fun r => decide (r.integration_id = some x)) = true) :
    0 < (rowsWith db x).length := by
  unfold rowsWith
  rw [List.length_pos]
  simp only [List.any_eq_true, decide_eq_true_eq] at h
  obtain ⟨r, hr, hx⟩ := h
  intro hnil
  have : r ∈ db.filter (fun r => decide (r.integration_id = some x)) := by
    simp [List.mem_filter, hr, hx]
  rw [hnil] at this
  simp at this

theorem rowsWith_zero (db : List Row) (x : String)
    (h : db.any (fun r => decide (r.integration_id = some x)) = false) :
    (rowsWith db x).length = 0 := by
  unfold rowsWith
  rw [List.length_eq_zero, List.filter_eq_nil_iff]
  intro r hr
  have h2 := List.any_eq_false.mp h r hr
  simpa using h2

theorem saveDoc_row_integration (env : Env) (data : ReceivedMessage) :
    (saveDoc_row env data).integration_id = some data.ID := rfl

/-- The store after `processData` is the store after the INSERT, whatever
happens downstream. -/
theorem processData_db (env : Env) (data : ReceivedMessage) (w : World) :
    (processData env data w).2.db = (insertDocument w.db (saveDoc_row env data)).2 := by
  unfold processData saveDoc insertDocument
  rw [saveDoc_row_integration]
  by_cases hany : w.db.any (fun r => decide (r.integration_id = some data.ID)) = true
  · simp [hany]
  · simp only [hany]
    by_cases hi : env.indexFails = true
    · simp [hi]
    · by_cases hp : env.publishFails = true
      · simp [hi, hp]
      · simp [hi, hp]

/-- When a row with the event's integration id is in the store, `saveDoc`
reports that the document existed and `processData` returns with the three
sinks as they were. -/
theorem processData_existing (env : Env) (data : ReceivedMessage) (w : World)
    (h : w.db.any (fun r => decide (r.integration_id = some data.ID)) = true) :
    saveDoc env data w = (Outcome.ret (none, true), w) ∧
    processData env data w = (Outcome.ret (), w) := by
  have hs : saveDoc env data w = (Outcome.ret (none, true), w) := by
    unfold saveDoc insertDocument
    rw [saveDoc_row_integration]
    simp [h]
  refine ⟨hs, ?_⟩
  unfold processData
  rw [hs]

/-- After the INSERT a row with the event's integration id is in the
store. -/
theorem insertDocument_any (env : Env) (data : ReceivedMessage) (db : List Row) :
    (insertDocument db (saveDoc_row env data)).2.any
      (fun r => decide (r.integration_id = some data.ID)) = true := by
  unfold insertDocument
  rw [saveDoc_row_integration]
  by_cases hany : db.any (fun r => decide (r.integration_id = some data.ID)) = true
  · simp only [hany, if_true]
  · simp only [hany]
    simp [saveDoc_row_integration]

/-- The INSERT keeps the uniqueness constraint and leaves exactly one row
with the event's integration id. -/
theorem insertDocument_unique (env : Env) (data : ReceivedMessage) (db : List Row)
    (hu : uniqueIntegration db) :
    uniqueIntegration (insertDocument db (saveDoc_row env data)).2 ∧
    (rowsWith (insertDocument db (saveDoc_row env data)).2 data.ID).length = 1 := by
  have hle : (rowsWith db data.ID).length ≤ 1 := by
    rw [rowsWith_length]
    exact List.nodup_iff_count_le_one.mp hu data.ID
  unfold insertDocument
  rw [saveDoc_row_integration]
  by_cases hany : db.any (fun r => decide (r.integration_id = some data.ID)) = true
  · simp only [hany, if_true]
    have := rowsWith_pos db data.ID hany
    exact ⟨hu, by omega⟩
  · have hany2 : db.any (fun r => decide (r.integration_id = some data.ID)) = false := by
      simpa using hany
    have h0 := rowsWith_zero db data.ID hany2
    simp only [hany2, Bool.false_eq_true, if_false]
    constructor
    · unfold uniqueIntegration at hu ⊢
      rw [List.filterMap_append]
      have hnot : data.ID ∉ db.filterMap (fun r => r.integration_id) := by
        rw [← List.count_eq_zero, ← rowsWith_length]
        exact h0
      simp only [List.filterMap_cons, saveDoc_row_integration, List.filterMap_nil]
      rw [List.nodup_append]
      refine ⟨hu, by simp, ?_⟩
      intro a ha hb
      simp only [List.mem_singleton] at hb
      subst hb
      exact hnot ha
    · unfold rowsWith at h0 ⊢
      rw [List.filter_append, List.length_append, h0]
      simp [saveDoc_row_integration]

/-- C1: on a store that satisfies the uniqueness constraint on the
integration id, after `processData` has run twice on the same event (each
run with its own clock, uuids and downstream failures) the store holds
exactly one row with the event's integration id; in the second run `saveDoc`
reports `alreadyExisted = true`, and the second run leaves the store, the
search index and the queue exactly as the first run left them. -/
theorem processData_idempotent (w : World) (data : ReceivedMessage) (e1 e2 : Env)
    (hw : uniqueIntegration w.db) :
    (rowsWith (processData e2 data (processData e1 data w).2).2.db data.ID).length = 1 ∧
    (saveDoc e2 data (processData e1 data w).2).1 = Outcome.ret (none, true) ∧
    (saveDoc e2 data (processData e1 data w).2).2 = (processData e1 data w).2 ∧
    (processData e2 data (processData e1 data w).2).1 = Outcome.ret () ∧
    (processData e2 data (processData e1 data w).2).2.db = (processData e1 data w).2.db ∧
    (processData e2 data (processData e1 data w).2).2.es = (processData e1 data w).2.es ∧
    (processData e2 data (processData e1 data w).2).2.mq = (processData e1 data w).2.mq := by
  have hany : (processData e1 data w).2.db.any
      (fun r => decide (r.integration_id = some data.ID)) = true := by
    rw [processData_db]
    exact insertDocument_any e1 data w.db
  obtain ⟨hs, hp⟩ := processData_existing e2 data (processData e1 data w).2 hany
  rw [hs, hp]
  refine ⟨?_, rfl, rfl, rfl, rfl, rfl, rfl⟩
  rw [processData_db]
  exact (insertDocument_unique e1 data w.db hw).2

/-- A run of C1 on the sample world and event. -/
theorem processData_idempotent_witness :
    uniqueIntegration sampleWorld.db ∧
    (rowsWith (processData sampleEnv2 sampleEvent
      (processData sampleEnv sampleEvent sampleWorld).2).2.db sampleEvent.ID).length = 1 ∧
    (saveDoc sampleEnv2 sampleEvent (processData sampleEnv sampleEvent sampleWorld).2).1 =
      Outcome.ret (none, true) :=
  have hw : uniqueIntegration sampleWorld.db := by decide
  ⟨hw, (processData_idempotent sampleWorld sampleEvent sampleEnv sampleEnv2 hw).1,
    (processData_idempotent sampleWorld sampleEvent sampleEnv sampleEnv2 hw).2.1⟩

theorem saveDoc_mq (env : Env) (data : ReceivedMessage) (w : World) :
    (saveDoc env data w).2.mq = w.mq := by
  unfold saveDoc
  split
  · rfl
  · split <;> rfl

/-- C10: when `saveDoc` has newly persisted the document of an event, the
request `processData` builds has a DetailContent list that is empty when the
normalized content is the empty string and otherwise has exactly one
element, with Index 0 and the normalized content as Content; the list never
has more than one element; and this request is the one message the call
publishes. -/
theorem processData_detailContent (env : Env) (data : ReceivedMessage) (w : World)
    (doc : Document) (hnew : (saveDoc env data w).1 = Outcome.ret (some doc, false)) :
    (parseContent (GoAny.str data.Content) = "" →
      (processData_request env data doc).DetailContent = []) ∧
    (parseContent (GoAny.str data.Content) ≠ "" →
      ∃ d, (processData_request env data doc).DetailContent = [d] ∧ d.Index = 0 ∧
        d.Content = parseContent (GoAny.str data.Content)) ∧
    (processData_request env data doc).DetailContent.length ≤ 1 ∧
    (env.publishFails = false →
      (processData env data w).2.mq = w.mq ++ [processData_request env data doc]) := by
  refine ⟨?_, ?_, ?_, ?_⟩
  · intro h
    simp [processData_request, h]
  · intro h
    refine ⟨DetailContent.mk env.detailUUID (env.formatRFC3339 env.detailNow) 0
      (parseContent (GoAny.str data.Content)), ?_, rfl, rfl⟩
    simp [processData_request, h]
  · unfold processData_request
    by_cases h : parseContent (GoAny.str data.Content) = ""
    · simp [h]
    · simp [h]
  · intro hp
    have hmq := saveDoc_mq env data w
    unfold processData
    rcases hsd : saveDoc env data w with ⟨o, w1⟩
    rw [hsd] at hnew hmq
    simp only at hnew hmq
    subst hnew
    simp [hp, hmq]

/-- A run of C10 on the sample event, newly persisted in the sample
world. -/
theorem processData_detailContent_witness :
    (saveDoc sampleEnv sampleEvent sampleWorld).1 =
      Outcome.ret (some (saveDoc_document sampleEnv sampleEvent "uuid-1"), false) ∧
    (processData_request sampleEnv sampleEvent
      (saveDoc_document sampleEnv sampleEvent "uuid-1")).DetailContent.length ≤ 1 :=
  have h : (saveDoc sampleEnv sampleEvent sampleWorld).1 =
      Outcome.ret (some (saveDoc_document sampleEnv sampleEvent "uuid-1"), false) := by
    decide
  ⟨h, (processData_detailContent sampleEnv sampleEvent sampleWorld _ h).2.2.1⟩

/-! ## The issued date: theorems -/

theorem layout_first_chunk :
    nextStdChunk "26/01/2006".data = ([], Std.day, "6/01/2006".data) := by decide

theorem layout_second_chunk :
    nextStdChunk "6/01/2006".data = ("6/".data, Std.zeroMonth, "/2006".data) := by decide

theorem layout_third_chunk :
    nextStdChunk "/2006".data = ("/".data, Std.longYear, []) := by decide

/-- The first round of `time.Parse` on the layout of main.go reads a day of
one or two digits. -/
theorem parseLoop_first (n : Nat) (st : ParseState) :
    parseLoop (n + 1) "26/01/2006".data st =
      match getnum st.value false with
      | Except.error e => Except.error e
      | Except.ok (d, v) => parseLoop n "6/01/2006".data { st with value := v, day := d } := by
  rw [parseLoop, layout_first_chunk]
  simp only [List.length_nil, skip]
  rfl

/-- The second round asks for the text "6/" in the value, before the
month. -/
theorem parseLoop_second_bad (n : Nat) (st : ParseState) (h : st.value.head? ≠ some '6') :
    parseLoop (n + 1) "6/01/2006".data st = Except.error ParseError.bad := by
  rw [parseLoop, layout_second_chunk]
  have hs : skip "6/".data.length st.value "6/".data = Except.error ParseError.bad := by
    show skip 2 st.value ['6', '/'] = _
    cases hv : st.value with
    | nil => simp [skip]
    | cons v vs =>
      rw [hv] at h
      have hv6 : v ≠ '6' := by simpa using h
      simp [skip, hv6]
  simp only [hs]

theorem isDigit0_six (d : Char) (t : List Char) (h : isDigit0 (d :: t) = false) : d ≠ '6' := by
  intro h6
  subst h6
  simp [isDigit0] at h

/-- A value with '/' as its third character is not parsed by the layout of
main.go. -/
theorem parseLoop_slash_third (n : Nat) (d1 d2 : Char) (rest : List Char) (y m d : Int) :
    ∃ e, parseLoop (n + 2) "26/01/2006".data
      { value := d1 :: d2 :: '/' :: rest, year := y, month := m, day := d } = Except.error e := by
  rw [parseLoop_first]
  simp only [getnum, List.drop_succ_cons, List.drop_zero]
  cases h1 : isDigit0 (d1 :: d2 :: '/' :: rest) with
  | false => exact ⟨ParseError.bad, by simp⟩
  | true =>
    cases h2 : isDigit0 (d2 :: '/' :: rest) with
    | false =>
      refine ⟨ParseError.bad, ?_⟩
      simp only [Bool.not_true, Bool.false_eq_true, if_false, Bool.not_false, if_true]
      exact parseLoop_second_bad n _ (by simpa using isDigit0_six d2 _ h2)
    | true =>
      refine ⟨ParseError.bad, ?_⟩
      simp only [Bool.not_true, Bool.false_eq_true, if_false]
      exact parseLoop_second_bad n _ (by simp)

theorem digitChar_isDigit : ∀ n : Fin 10, decide ('0' ≤ digitChar n ∧ digitChar n ≤ '9') = true := by
  decide

theorem digitChar_val : ∀ n : Fin 10, digitVal (digitChar n) = (n.val : Int) := by decide

theorem digitChar_range : ∀ n : Fin 10, ¬ (digitChar n < '0' ∨ digitChar n > '9') := by decide

theorem digitChar_toNat : ∀ n : Fin 10, (digitChar n).toNat - 48 = n.val := by decide

theorem digitChar_sign : ∀ n : Fin 10, digitChar n ≠ '-' ∧ digitChar n ≠ '+' := by decide

theorem leadingInt_four (a b c d : Fin 10) :
    leadingInt [digitChar a, digitChar b, digitChar c, digitChar d] 0 =
      Except.ok (a.val * 1000 + b.val * 100 + c.val * 10 + d.val, []) := by
  have ha := a.isLt
  have hb := b.isLt
  have hc := c.isLt
  have hd := d.isLt
  simp only [leadingInt, digitChar_range, digitChar_toNat, if_false]
  rw [if_neg (by omega), if_neg (by omega), if_neg (by omega), if_neg (by omega),
    if_neg (by omega), if_neg (by omega), if_neg (by omega), if_neg (by omega)]
  congr 2
  omega


theorem reference_first_chunk :
    nextStdChunk "02/01/2006".data = ([], Std.zeroDay, "/01/2006".data) := by decide

theorem reference_second_chunk :
    nextStdChunk "/01/2006".data = ("/".data, Std.zeroMonth, "/2006".data) := by decide

theorem atoi_four (a b c d : Fin 10) :
    atoi [digitChar a, digitChar b, digitChar c, digitChar d] =
      Except.ok ((a.val : Int) * 1000 + b.val * 100 + c.val * 10 + d.val) := by
  have ha := a.isLt
  have hb := b.isLt
  have hc := c.isLt
  have hd := d.isLt
  have hs := digitChar_sign a
  unfold atoi
  simp only [List.head?_cons, Option.some.injEq, hs.1, hs.2, or_self, if_false, leadingInt_four,
    decide_False]
  simp only [ne_eq, not_true_eq_false, if_false, Bool.false_eq_true]
  have harith : (((a.val * 1000 + b.val * 100 + c.val * 10 + d.val : Nat) : Int) + 2 ^ 63) % 2 ^ 64
      - 2 ^ 63 = (a.val : Int) * 1000 + b.val * 100 + c.val * 10 + d.val := by
    have h63 : (2 : Int) ^ 63 = 9223372036854775808 := by norm_num
    have h64 : (2 : Int) ^ 64 = 18446744073709551616 := by norm_num
    rw [h63, h64]
    push_cast
    omega
  rw [harith]

/-- Under Go's layout for day/month/year, "02/01/2006", every string of two
digits, '/', two digits, '/', four digits that names a day of the calendar is
parsed to the day, the month and the year written. -/
theorem timeParse_reference_layout (d1 d2 m1 m2 y1 y2 y3 y4 : Fin 10)
    (hm : (1 : Int) ≤ (m1.val : Int) * 10 + m2.val ∧ (m1.val : Int) * 10 + m2.val ≤ 12)
    (hd : (1 : Int) ≤ (d1.val : Int) * 10 + d2.val ∧
      (d1.val : Int) * 10 + d2.val ≤ daysIn ((m1.val : Int) * 10 + m2.val)
        ((y1.val : Int) * 1000 + y2.val * 100 + y3.val * 10 + y4.val)) :
    timeParse "02/01/2006"
      (String.mk [digitChar d1, digitChar d2, '/', digitChar m1, digitChar m2, '/',
        digitChar y1, digitChar y2, digitChar y3, digitChar y4]) =
      Except.ok ⟨(y1.val : Int) * 1000 + y2.val * 100 + y3.val * 10 + y4.val,
        (m1.val : Int) * 10 + m2.val, (d1.val : Int) * 10 + d2.val, 0, 0, 0, 0⟩ := by
  unfold timeParse
  have hlen : "02/01/2006".data.length + 1 = 11 := by decide
  rw [hlen]
  rw [parseLoop, reference_first_chunk]
  simp only [List.length_nil, skip, getnum, isDigit0, digitChar_isDigit, List.drop_succ_cons,
    List.drop_zero, Bool.not_true, Bool.false_eq_true, if_false, List.headD_cons, digitChar_val]
  have c2 : nextStdChunk ['/', '0', '1', '/', '2', '0', '0', '6'] =
      (['/'], Std.zeroMonth, ['/', '2', '0', '0', '6']) := by decide
  have c3 : nextStdChunk ['/', '2', '0', '0', '6'] = (['/'], Std.longYear, []) := by decide
  have c4 : nextStdChunk [] = ([], Std.none, []) := by decide
  have hmi : ¬ (((m1.val : Int) * 10 + m2.val ≤ 0) ∨ (12 : Int) < (m1.val : Int) * 10 + m2.val) := by
    omega
  rw [parseLoop, c2]
  simp only [List.length_singleton, skip, getnum, isDigit0, digitChar_isDigit, List.drop_succ_cons,
    List.drop_zero, Bool.not_true, Bool.false_eq_true, if_false, List.headD_cons, digitChar_val,
    Char.reduceEq, ne_eq, not_true_eq_false, decide_True, hmi, List.length_nil]
  rw [parseLoop, c3]
  simp only [List.length_singleton, skip, isDigit0, digitChar_isDigit, List.drop_succ_cons,
    List.drop_zero, Bool.not_true, Bool.false_eq_true, if_false,
    Char.reduceEq, ne_eq, not_true_eq_false, List.length_cons, List.length_nil, List.take_succ_cons,
    List.take_zero, atoi_four]
  have h4 : ¬ (0 + 1 + 1 + 1 + 1 < 4 ∨ False) := by simp
  rw [if_neg h4, parseLoop, c4]
  simp only [List.length_nil, skip, ne_eq, not_true_eq_false, if_false]
  have hday : ¬ ((m1.val : Int) * 10 + m2.val < 0) := by omega
  have hd0 : ¬ ((d1.val : Int) * 10 + d2.val < 0) := by omega
  have hcond : ¬ ((d1.val : Int) * 10 + d2.val < 1 ∨
      (d1.val : Int) * 10 + d2.val > daysIn ((m1.val : Int) * 10 + m2.val)
        ((y1.val : Int) * 1000 + y2.val * 100 + y3.val * 10 + y4.val)) := by
    intro h
    rcases h with h | h
    · omega
    · exact absurd hd.2 (not_le.mpr h)
  simp only [hday, hd0, if_false, hcond]

/-- Under the layout of main.go, "26/01/2006", every string of two digits, the
text "6/", two digits, '/', four digits that names a day of the calendar is
parsed to that day, month and year. -/
theorem parseDateStringToTime_six_slash (d1 d2 m1 m2 y1 y2 y3 y4 : Fin 10)
    (hm : (1 : Int) ≤ (m1.val : Int) * 10 + m2.val ∧ (m1.val : Int) * 10 + m2.val ≤ 12)
    (hd : (1 : Int) ≤ (d1.val : Int) * 10 + d2.val ∧
      (d1.val : Int) * 10 + d2.val ≤ daysIn ((m1.val : Int) * 10 + m2.val)
        ((y1.val : Int) * 1000 + y2.val * 100 + y3.val * 10 + y4.val)) :
    parseDateStringToTime
      (String.mk [digitChar d1, digitChar d2, '6', '/', digitChar m1, digitChar m2, '/',
        digitChar y1, digitChar y2, digitChar y3, digitChar y4]) =
      some ⟨(y1.val : Int) * 1000 + y2.val * 100 + y3.val * 10 + y4.val,
        (m1.val : Int) * 10 + m2.val, (d1.val : Int) * 10 + d2.val, 0, 0, 0, 0⟩ := by
  unfold parseDateStringToTime timeParse
  have hlen : "26/01/2006".data.length + 1 = 11 := by decide
  rw [hlen]
  rw [parseLoop, layout_first_chunk]
  simp only [List.length_nil, skip, getnum, isDigit0, digitChar_isDigit, List.drop_succ_cons,
    List.drop_zero, Bool.not_true, Bool.false_eq_true, if_false, List.headD_cons, digitChar_val]
  have c2 : nextStdChunk ['6', '/', '0', '1', '/', '2', '0', '0', '6'] =
      (['6', '/'], Std.zeroMonth, ['/', '2', '0', '0', '6']) := by decide
  have c3 : nextStdChunk ['/', '2', '0', '0', '6'] = (['/'], Std.longYear, []) := by decide
  have c4 : nextStdChunk [] = ([], Std.none, []) := by decide
  have hmi : ¬ (((m1.val : Int) * 10 + m2.val ≤ 0) ∨ (12 : Int) < (m1.val : Int) * 10 + m2.val) := by
    omega
  rw [parseLoop, c2]
  simp only [List.length_cons, List.length_singleton, skip, getnum, isDigit0, digitChar_isDigit,
    List.drop_succ_cons, List.drop_zero, Bool.not_true, Bool.false_eq_true, if_false,
    List.headD_cons, digitChar_val, Char.reduceEq, ne_eq, not_true_eq_false, decide_True, hmi,
    List.length_nil]
  rw [parseLoop, c3]
  simp only [List.length_singleton, skip, isDigit0, digitChar_isDigit, List.drop_succ_cons,
    List.drop_zero, Bool.not_true, Bool.false_eq_true, if_false,
    Char.reduceEq, ne_eq, not_true_eq_false, List.length_cons, List.length_nil, List.take_succ_cons,
    List.take_zero, atoi_four]
  have h4 : ¬ (0 + 1 + 1 + 1 + 1 < 4 ∨ False) := by simp
  rw [if_neg h4, parseLoop, c4]
  simp only [List.length_nil, skip, ne_eq, not_true_eq_false, if_false]
  have hday : ¬ ((m1.val : Int) * 10 + m2.val < 0) := by omega
  have hd0 : ¬ ((d1.val : Int) * 10 + d2.val < 0) := by omega
  have hcond : ¬ ((d1.val : Int) * 10 + d2.val < 1 ∨
      (d1.val : Int) * 10 + d2.val > daysIn ((m1.val : Int) * 10 + m2.val)
        ((y1.val : Int) * 1000 + y2.val * 100 + y3.val * 10 + y4.val)) := by
    intro h
    rcases h with h | h
    · omega
    · exact absurd hd.2 (not_le.mpr h)
  have hy : (y1.val : Int) * 1000 + y2.val * 100 + y3.val * 10 + y4.val ≥ 0 ∧
      (y1.val : Int) * 1000 + y2.val * 100 + y3.val * 10 + y4.val ≤ 9999 := by
    have := y1.isLt
    have := y2.isLt
    have := y3.isLt
    have := y4.isLt
    omega
  simp only [hday, hd0, if_false, hcond, hy, and_self, if_true]

/-- C4, on the code: `parseDateStringToTime` returns nil for the date
"26/01/2006", and for every string with '/' as its third character, so for
every date written as two-digit day, '/', two-digit month, '/', four-digit
year; Go reads the layout "26/01/2006" of main.go as a day, the text "6/", a
two-digit month, '/' and a four-digit year.  Under Go's layout for this
pattern, "02/01/2006", the same string is parsed to its day, month and
year. -/
theorem parseDateStringToTime_slash_third (d1 d2 : Char) (rest : List Char) :
    parseDateStringToTime "26/01/2006" = none ∧
    parseDateStringToTime (String.mk (d1 :: d2 :: '/' :: rest)) = none ∧
    timeParse "02/01/2006" "26/01/2006" = Except.ok ⟨2006, 1, 26, 0, 0, 0, 0⟩ := by
  refine ⟨by decide, ?_, rfl⟩
  unfold parseDateStringToTime timeParse
  obtain ⟨e, he⟩ := parseLoop_slash_third 9 d1 d2 rest 0 (-1) (-1)
  have hlen : "26/01/2006".data.length + 1 = 9 + 2 := by decide
  rw [hlen]
  simp only [he]

/-- C5, on the code: `parseDateStringToTime` returns nil for the empty
string, and it returns a time, the 26th of January 2006, for the string
"266/01/2006", which is not of the pattern two-digit day, '/', two-digit
month, '/', four-digit year. -/
theorem parseDateStringToTime_accepts_off_pattern :
    parseDateStringToTime "" = none ∧
    parseDateStringToTime "266/01/2006" = some ⟨2006, 1, 26, 0, 0, 0, 0⟩ ∧
    timeParse "02/01/2006" "266/01/2006" = Except.error ParseError.bad := by
  refine ⟨by decide, by decide, rfl⟩

/-! ## The row, the indexed document and the request: theorems -/

/-- What `saveDoc` does for an event whose integration id is not in the
store: the row is added, and unless the index request fails the document
built from the same event is indexed under the id of the row and
returned. -/
theorem saveDoc_new (env : Env) (data : ReceivedMessage) (w : World)
    (hnew : w.db.any (fun r => decide (r.integration_id = some data.ID)) = false) :
    (saveDoc env data w).2.db = w.db ++ [saveDoc_row env data] ∧
    (env.indexFails = false →
      saveDoc env data w =
        (Outcome.ret (some (saveDoc_document env data (saveDoc_row env data).id), false),
          { w with
            db := w.db ++ [saveDoc_row env data]
            es := indexDocument w.es (saveDoc_row env data).id
              (saveDoc_document env data (saveDoc_row env data).id) })) := by
  unfold saveDoc insertDocument
  rw [saveDoc_row_integration]
  simp only [hnew, Bool.false_eq_true, if_false]
  constructor
  · by_cases hi : env.indexFails = true
    · simp [hi]
    · simp [hi]
  · intro hi
    simp [hi, saveDoc_document]

/-- C11, on the code: for an event newly persisted, the row `saveDoc`
inserts and the document it indexes under the id of that row agree on the
status (not started), the approve status (draft), the five process statuses
(pending), the detect-face flag (true), the can-find-by-image flag, the
title, the translate language code, the file type, the privacy and the
keywords, and on every other field both carry; they differ on the priority,
8 in the row and 1 in the document, and the priority of the request
`processData` builds is the 1 of the document, not the 8 of the row. -/
theorem saveDoc_row_document_fields (env : Env) (data : ReceivedMessage) (w : World)
    (doc : Document) (hnew : (saveDoc env data w).1 = Outcome.ret (some doc, false)) :
    (saveDoc env data w).2.db = w.db ++ [saveDoc_row env data] ∧
    (saveDoc env data w).2.es = indexDocument w.es (saveDoc_row env data).id doc ∧
    doc = saveDoc_document env data (saveDoc_row env data).id ∧
    doc.ID = (saveDoc_row env data).id ∧
    ((saveDoc_row env data).status = doc.Status ∧ doc.Status = DocStatusNotStart) ∧
    ((saveDoc_row env data).approve_status = doc.ApproveStatus ∧
      doc.ApproveStatus = ApproveStatusDraft) ∧
    ((saveDoc_row env data).ocr_process_status = doc.OcrProcessStatus ∧
      (saveDoc_row env data).face_detect_process_status = doc.FaceDetectProcessStatus ∧
      (saveDoc_row env data).extract_pure_info_process_status = doc.ExtractPureInfoProcessStatus ∧
      (saveDoc_row env data).extract_content_process_status = doc.ExtractContentProcessStatus ∧
      (saveDoc_row env data).legal_document_process_status = doc.LegalDocumentProcessStatus ∧
      doc.OcrProcessStatus = Pending ∧ doc.FaceDetectProcessStatus = Pending ∧
      doc.ExtractPureInfoProcessStatus = Pending ∧ doc.ExtractContentProcessStatus = Pending ∧
      doc.LegalDocumentProcessStatus = Pending) ∧
    ((saveDoc_row env data).is_detect_face = doc.IsDetectFace ∧ doc.IsDetectFace = true) ∧
    (saveDoc_row env data).can_find_document_by_image = doc.CanFindDocumentByImage ∧
    (saveDoc_row env data).title = doc.Title ∧
    (saveDoc_row env data).translate_lang_code = doc.TranslateLangCode ∧
    (saveDoc_row env data).file_type = doc.FileType ∧
    (saveDoc_row env data).privacy = doc.Privacy ∧
    (saveDoc_row env data).keywords = doc.Keywords ∧
    (saveDoc_row env data).priority = 8 ∧ doc.Priority = 1 ∧
    (saveDoc_row env data).priority ≠ doc.Priority ∧
    (processData_request env data doc).Priority = 1 ∧
    (processData_request env data doc).Priority ≠ (saveDoc_row env data).priority ∧
    (doc.Subject = some (saveDoc_row env data).subject ∧
      doc.Description = some (saveDoc_row env data).description ∧
      doc.CreatedTime = (saveDoc_row env data).created_time ∧
      doc.InsertedTime = (saveDoc_row env data).inserted_time ∧
      doc.IssuedTime = (saveDoc_row env data).issued_time ∧
      doc.DocumentCode = some (saveDoc_row env data).document_code ∧
      doc.CreatorID = (saveDoc_row env data).creator_id ∧
      doc.CreatorName = some (saveDoc_row env data).creator_name ∧
      doc.Metadata = some (saveDoc_row env data).metadata ∧
      doc.InputSourceType = some (saveDoc_row env data).input_source_type ∧
      doc.OriginalLangCode = (saveDoc_row env data).original_lang_code ∧
      doc.Autograph = some (saveDoc_row env data).autograph ∧
      doc.PhysicalState = (saveDoc_row env data).physical_state ∧
      doc.HasAttachment = (saveDoc_row env data).has_attachment ∧
      doc.ReliabilityLevel = (saveDoc_row env data).reliability_level ∧
      doc.IntegrationID = (saveDoc_row env data).integration_id ∧
      doc.InputFileURLs = (saveDoc_row env data).input_file_urls) := by
  have hany : w.db.any (fun r => decide (r.integration_id = some data.ID)) = false := by
    by_cases hany : w.db.any (fun r => decide (r.integration_id = some data.ID)) = true
    · rw [(processData_existing env data w hany).1] at hnew
      simp at hnew
    · simpa using hany
  have hi : env.indexFails = false := by
    by_cases hi : env.indexFails = true
    · unfold saveDoc insertDocument at hnew
      rw [saveDoc_row_integration] at hnew
      simp [hany, hi] at hnew
    · simpa using hi
  have hs := (saveDoc_new env data w hany).2 hi
  rw [hs] at hnew ⊢
  simp only [Outcome.ret.injEq, Prod.mk.injEq, Option.some.injEq, and_true] at hnew
  subst hnew
  refine ⟨rfl, rfl, rfl, rfl, ⟨rfl, rfl⟩, ⟨rfl, rfl⟩,
    ⟨rfl, rfl, rfl, rfl, rfl, rfl, rfl, rfl, rfl, rfl⟩,
    ⟨rfl, rfl⟩, rfl, rfl, rfl, rfl, rfl, rfl, rfl, rfl, ?_, rfl, ?_,
    ⟨rfl, rfl, rfl, rfl, rfl, rfl, rfl, rfl, rfl, rfl, rfl, rfl, rfl, rfl, rfl, rfl, rfl⟩⟩
  · show (8 : Int) ≠ 1
    decide
  · show (1 : Int) ≠ 8
    decide

/-- A run of C11 on the sample event, newly persisted in the sample world:
the rows hold priority 8, the indexed document and the published request
hold priority 1. -/
theorem saveDoc_row_document_fields_witness :
    (saveDoc sampleEnv sampleEvent sampleWorld).1 =
      Outcome.ret (some (saveDoc_document sampleEnv sampleEvent "uuid-1"), false) ∧
    (saveDoc_row sampleEnv sampleEvent).priority ≠
      (saveDoc_document sampleEnv sampleEvent "uuid-1").Priority ∧
    (processData sampleEnv sampleEvent sampleWorld).2.db.map (fun r => r.priority) = [8, 8] ∧
    (processData sampleEnv sampleEvent sampleWorld).2.es.map (fun p => p.2.Priority) = [1] ∧
    (processData sampleEnv sampleEvent sampleWorld).2.mq.map (fun r => r.Priority) = [1] :=
  have h : (saveDoc sampleEnv sampleEvent sampleWorld).1 =
      Outcome.ret (some (saveDoc_document sampleEnv sampleEvent "uuid-1"), false) := by
    decide
  ⟨h, (saveDoc_row_document_fields sampleEnv sampleEvent sampleWorld _ h).2.2.2.2.2.2.2.2.2.2.2.2.2.2.2.2.1,
    by decide, by decide, by decide⟩

/-- C12: the value `processData` hands to `parseContent` is the field
`Content`, a string, so it is never a list of strings nor another shape; the
normalized content is the field `Content` itself, character for character;
and the request holds a fragment, the one with Index 0 and `Content` as its
text, exactly when `Content` is not the empty string. -/
theorem processData_content_string (env : Env) (data : ReceivedMessage) (doc : Document) :
    processData_contentArg data = GoAny.str data.Content ∧
    (∀ vals : List String, processData_contentArg data ≠ GoAny.strs vals) ∧
    processData_contentArg data ≠ GoAny.other ∧
    parseContent (processData_contentArg data) = data.Content ∧
    (parseContent (processData_contentArg data)).data = data.Content.data ∧
    (processData_request env data doc).DetailContent =
      (if parseContent (processData_contentArg data) = "" then []
       else [DetailContent.mk env.detailUUID (env.formatRFC3339 env.detailNow) 0 data.Content]) ∧
    ((processData_request env data doc).DetailContent ≠ [] ↔ data.Content ≠ "") ∧
    ((processData_request env data doc).DetailContent = [] ↔ data.Content = "") := by
  have hreq : (processData_request env data doc).DetailContent =
      (if data.Content = "" then []
       else [DetailContent.mk env.detailUUID (env.formatRFC3339 env.detailNow) 0 data.Content]) := by
    unfold processData_request
    by_cases h : data.Content = ""
    · simp [parseContent, h]
    · simp [parseContent, h]
  refine ⟨rfl, ?_, ?_, rfl, rfl, hreq, ?_, ?_⟩
  · intro vals h
    simp [processData_contentArg] at h
  · intro h
    simp [processData_contentArg] at h
  · rw [hreq]
    by_cases h : data.Content = ""
    · simp [h]
    · simp [h]
  · rw [hreq]
    by_cases h : data.Content = ""
    · simp [h]
    · simp [h]

end Icomm
